import Mathlib

/-!
# Verification of the domstate_notify generic netlink client (`client.c`)

The development embeds the two functions of `client.c` that carry behaviour:

* `main` (lines 107-188) as a function from the results of its library calls and
  the signals delivered to the process to the trace of calls it makes and the
  way it ends;
* `callback_message` (lines 76-105) as a function from a received generic
  netlink message (command byte and attribute bytes) to the text it prints.

Library calls are not part of `client.c`; their results are inputs of the model,
except for the attribute walk of libnl (`nla_ok`, `nla_next`, `nla_parse`,
`nla_get_u32`), which is modelled on bytes because `callback_message` depends on
what it accepts.
-/

namespace DomstateNotify

/-! ## Constants of the generic netlink interface (lines 48-69) -/

def DOMSTATE_NOTIFY_GENL_FAMILY_NAME : String := "domstate_notify"
def DOMSTATE_NOTIFY_GENL_VERSION : Nat := 0x01
def DOMSTATE_NOTIFY_MCGROUP_NAME : String := "domstate_notify"

def DOMSTATE_NOTIFY_CMD_UNSPEC : Nat := 0
def DOMSTATE_NOTIFY_CMD_OPEN : Nat := 1
def DOMSTATE_NOTIFY_CMD_DESTROY : Nat := 2
def DOMSTATE_NOTIFY_CMD_MAX : Nat := 2

def DOMSTATE_NOTIFY_ATTR_UNSPEC : Nat := 0
def DOMSTATE_NOTIFY_ATTR_DOMAIN_ID : Nat := 1
def DOMSTATE_NOTIFY_ATTR_STATE : Nat := 2
def DOMSTATE_NOTIFY_ATTR_EXTRA : Nat := 3
def DOMSTATE_NOTIFY_ATTR_MAX : Nat := 3

/-! ## Constants of the platform headers used by `client.c` -/

/-- Value of `EINTR` in the Linux `errno.h`. -/
def EINTR : Int := 4

/-- Value of `NLE_AGAIN` in libnl3 `netlink/errno.h`: a receive on a non-blocking
socket that has nothing to read returns `-NLE_AGAIN`. -/
def NLE_AGAIN : Int := 4

/-- Value of `EXIT_FAILURE` in `stdlib.h`. -/
def EXIT_FAILURE : Int := 1

/-- Value of `NL_OK` in libnl3 `netlink/handlers.h`. -/
def NL_OK : Int := 0

/-- The four signals for which `main` installs `close_handler` (lines 117-120). -/
inductive Signal
  | SIGHUP
  | SIGTERM
  | SIGINT
  | SIGALRM
  deriving DecidableEq, Repr

/-- Signal numbers of the Linux `signal.h`. -/
def Signal.signo : Signal → Int
  | .SIGHUP => 1
  | .SIGINT => 2
  | .SIGALRM => 14
  | .SIGTERM => 15

/-! ## The interrupt flag (lines 42, 71-74) -/

/-- The handler `close_handler`: the new value of `interrupted` is `sig`,
whatever the flag held before. -/
def close_handler (sig : Int) (_interrupted : Int) : Int := sig

/-- Delivery of a sequence of monitored signals, one handler run each. -/
def deliver (sigs : List Signal) (interrupted : Int) : Int :=
  sigs.foldl (fun flag s => close_handler s.signo flag) interrupted

/-! ## The trace of `main` -/

/-- The calls `main` makes, with the arguments that are decided by `main`. -/
inductive Call
  | sigaction (sig : Signal)
  | nl_socket_alloc
  | fprintf_stderr (text : String)
  | exit (status : Int)
  | nl_socket_disable_seq_check
  | nl_socket_modify_cb
  | genl_connect
  | genl_ctrl_resolve (name : String)
  | genl_ctrl_resolve_grp (family_name grp_name : String)
  | nl_socket_add_membership (grp_id : Int)
  | genl_send_simple (family_id : Int) (cmd : Nat) (version : Nat) (flags : Nat)
  | nl_socket_set_nonblocking
  | nl_recvmsgs_default
  | nl_close
  | nl_socket_free
  deriving DecidableEq, Repr

/-- One evaluation of the head of `for (;;)` together with what the environment
does around it: `before` are the signals delivered since the previous pass and
before the test `if (interrupted)`, `recv` is the value `nl_recvmsgs_default`
returns if it is called, `during` are the signals delivered while that call is
in progress, before line 176 is evaluated. -/
structure Iteration where
  before : List Signal
  recv : Int
  during : List Signal
  deriving DecidableEq, Repr

/-- What the library and the outside world answer to `main`. -/
structure Env where
  errno : Int
  /-- True when `nl_socket_alloc` returns a non-null socket. -/
  nl_socket_alloc : Bool
  genl_connect : Int
  genl_ctrl_resolve : Int
  genl_ctrl_resolve_grp : Int
  nl_socket_add_membership : Int
  /-- Result of `genl_send_simple` for `DOMSTATE_NOTIFY_CMD_OPEN`. -/
  send_open : Int
  iterations : List Iteration
  /-- Result of `genl_send_simple` for `DOMSTATE_NOTIFY_CMD_DESTROY`. -/
  send_destroy : Int
  deriving DecidableEq, Repr

/-- How a run ends. -/
inductive Outcome
  /-- Line 187: `return ret`. -/
  | returned (ret : Int)
  /-- Line 125: `exit(EXIT_FAILURE)`. -/
  | exited (status : Int)
  /-- The supplied iterations ran out with the loop of lines 172-179 still going. -/
  | running
  deriving DecidableEq, Repr

structure Run where
  trace : List Call
  outcome : Outcome
  deriving DecidableEq, Repr

/-- The body of the loop, lines 173-178, entered with the flag `interrupted`:
`none` is the `break` of line 174, otherwise the new flag and the new `ret`. -/
def loop_body (interrupted : Int) (r : Int) (during : List Signal) : Option (Int × Int) :=
  if interrupted ≠ 0 then none
  else
    let ret := r
    let interrupted := deliver during interrupted
    if ret < 0 ∧ ret ≠ -EINTR then some (1, ret) else some (interrupted, ret)

/-- State in which the loop of lines 172-179 is left. -/
structure LoopExit where
  trace : List Call
  interrupted : Int
  /-- The value of `ret` when the `break` was taken, `none` while still looping. -/
  ret : Option Int
  deriving DecidableEq, Repr

/-- The loop `for (;;)` of lines 172-179. -/
def recv_loop (interrupted ret : Int) (trace : List Call) : List Iteration → LoopExit
  | [] => ⟨trace, interrupted, none⟩
  | it :: rest =>
    let flag := deliver it.before interrupted
    match loop_body flag it.recv it.during with
    | none => ⟨trace, flag, some ret⟩
    | some (flag', ret') => recv_loop flag' ret' (trace ++ [Call.nl_recvmsgs_default]) rest

/-- The label `e_exit`, lines 184-187. -/
def e_exit (trace : List Call) (ret : Int) : Run :=
  ⟨trace ++ [Call.nl_close, Call.nl_socket_free], Outcome.returned ret⟩

/-- The function `main`, lines 107-188. -/
def main (env : Env) : Run :=
  let t := [Call.sigaction .SIGHUP, Call.sigaction .SIGTERM, Call.sigaction .SIGINT,
    Call.sigaction .SIGALRM, Call.nl_socket_alloc]
  if !env.nl_socket_alloc then
    ⟨t ++ [Call.fprintf_stderr ("Unable to alloc nl socket errno = " ++ toString env.errno ++ "\n"),
      Call.exit EXIT_FAILURE], Outcome.exited EXIT_FAILURE⟩
  else
  let t := t ++ [Call.nl_socket_disable_seq_check, Call.nl_socket_modify_cb]
  let ret := env.genl_connect
  let t := t ++ [Call.genl_connect]
  if ret < 0 then
    e_exit (t ++ [Call.fprintf_stderr "Failed to connect to netlink socket.\n"]) ret
  else
  let ret := env.genl_ctrl_resolve
  let t := t ++ [Call.genl_ctrl_resolve DOMSTATE_NOTIFY_GENL_FAMILY_NAME]
  if ret < 0 then
    e_exit (t ++ [Call.fprintf_stderr
      ("Unable to resolve family name " ++ DOMSTATE_NOTIFY_GENL_FAMILY_NAME ++ "\n")]) ret
  else
  let family_id := ret
  let ret := env.genl_ctrl_resolve_grp
  let t := t ++ [Call.genl_ctrl_resolve_grp DOMSTATE_NOTIFY_GENL_FAMILY_NAME
    DOMSTATE_NOTIFY_MCGROUP_NAME]
  if ret < 0 then
    e_exit (t ++ [Call.fprintf_stderr
      ("Unable to resolve group " ++ DOMSTATE_NOTIFY_MCGROUP_NAME ++ "\n")]) ret
  else
  let grp_id := ret
  let ret := env.nl_socket_add_membership
  let t := t ++ [Call.nl_socket_add_membership grp_id]
  if ret < 0 then
    e_exit (t ++ [Call.fprintf_stderr
      ("Unable to join group " ++ DOMSTATE_NOTIFY_MCGROUP_NAME ++ "\n")]) ret
  else
  let ret := env.send_open
  let t := t ++ [Call.genl_send_simple family_id DOMSTATE_NOTIFY_CMD_OPEN
    DOMSTATE_NOTIFY_GENL_VERSION 0]
  if ret < 0 then
    e_exit (t ++ [Call.fprintf_stderr "Unable to send connect command!\n"]) ret
  else
  let t := t ++ [Call.nl_socket_set_nonblocking]
  let l := recv_loop 0 ret t env.iterations
  match l.ret with
  | none => ⟨l.trace, Outcome.running⟩
  | some ret =>
    let _unused := env.send_destroy
    e_exit (l.trace ++ [Call.genl_send_simple family_id DOMSTATE_NOTIFY_CMD_DESTROY
      DOMSTATE_NOTIFY_GENL_VERSION 0]) ret

/-! ## Vocabulary for statements about traces -/

/-- The four setup steps whose result `main` tests after the socket exists and
before `DOMSTATE_NOTIFY_CMD_OPEN` is sent. -/
inductive SetupStep
  | connect
  | resolve
  | resolve_grp
  | add_membership
  deriving DecidableEq, Repr

/-- The call `main` makes for a setup step. -/
def SetupStep.call (env : Env) : SetupStep → Call
  | .connect => Call.genl_connect
  | .resolve => Call.genl_ctrl_resolve DOMSTATE_NOTIFY_GENL_FAMILY_NAME
  | .resolve_grp =>
    Call.genl_ctrl_resolve_grp DOMSTATE_NOTIFY_GENL_FAMILY_NAME DOMSTATE_NOTIFY_MCGROUP_NAME
  | .add_membership => Call.nl_socket_add_membership env.genl_ctrl_resolve_grp

/-- The value the library returns for a setup step. -/
def SetupStep.result (env : Env) : SetupStep → Int
  | .connect => env.genl_connect
  | .resolve => env.genl_ctrl_resolve
  | .resolve_grp => env.genl_ctrl_resolve_grp
  | .add_membership => env.nl_socket_add_membership

/-- The setup step is reached in the run on `env` (the socket was allocated and
every earlier step returned a non-negative value) and returns a negative value. -/
def Env.failsAt (env : Env) : SetupStep → Prop
  | .connect => env.nl_socket_alloc = true ∧ env.genl_connect < 0
  | .resolve => env.nl_socket_alloc = true ∧ 0 ≤ env.genl_connect ∧ env.genl_ctrl_resolve < 0
  | .resolve_grp => env.nl_socket_alloc = true ∧ 0 ≤ env.genl_connect ∧
      0 ≤ env.genl_ctrl_resolve ∧ env.genl_ctrl_resolve_grp < 0
  | .add_membership => env.nl_socket_alloc = true ∧ 0 ≤ env.genl_connect ∧
      0 ≤ env.genl_ctrl_resolve ∧ 0 ≤ env.genl_ctrl_resolve_grp ∧
      env.nl_socket_add_membership < 0

/-- Every step up to and including the send of `DOMSTATE_NOTIFY_CMD_OPEN`
succeeds, so the run on `env` enters the receive loop. -/
def Env.entersLoop (env : Env) : Prop :=
  env.nl_socket_alloc = true ∧ 0 ≤ env.genl_connect ∧ 0 ≤ env.genl_ctrl_resolve ∧
    0 ≤ env.genl_ctrl_resolve_grp ∧ 0 ≤ env.nl_socket_add_membership ∧ 0 ≤ env.send_open

def Call.isSetupStep : Call → Bool
  | .genl_connect => true
  | .genl_ctrl_resolve _ => true
  | .genl_ctrl_resolve_grp _ _ => true
  | .nl_socket_add_membership _ => true
  | _ => false

def Call.isResolve : Call → Bool
  | .genl_ctrl_resolve _ => true
  | _ => false

def Call.isResolveGrp : Call → Bool
  | .genl_ctrl_resolve_grp _ _ => true
  | _ => false

def Call.isJoin : Call → Bool
  | .nl_socket_add_membership _ => true
  | _ => false

def Call.isSend : Call → Bool
  | .genl_send_simple _ _ _ _ => true
  | _ => false

/-- A send of the given command code. -/
def Call.isSendOf (cmd : Nat) : Call → Bool
  | .genl_send_simple _ c _ _ => c == cmd
  | _ => false

def Call.isRecv : Call → Bool
  | .nl_recvmsgs_default => true
  | _ => false

/-- The calls of a run that has reached line 170, up to and including
`nl_socket_set_nonblocking`. -/
def setup_calls (env : Env) : List Call :=
  [Call.sigaction .SIGHUP, Call.sigaction .SIGTERM, Call.sigaction .SIGINT,
    Call.sigaction .SIGALRM, Call.nl_socket_alloc, Call.nl_socket_disable_seq_check,
    Call.nl_socket_modify_cb, Call.genl_connect,
    Call.genl_ctrl_resolve DOMSTATE_NOTIFY_GENL_FAMILY_NAME,
    Call.genl_ctrl_resolve_grp DOMSTATE_NOTIFY_GENL_FAMILY_NAME DOMSTATE_NOTIFY_MCGROUP_NAME,
    Call.nl_socket_add_membership env.genl_ctrl_resolve_grp,
    Call.genl_send_simple env.genl_ctrl_resolve DOMSTATE_NOTIFY_CMD_OPEN
      DOMSTATE_NOTIFY_GENL_VERSION 0,
    Call.nl_socket_set_nonblocking]

/-- The send of `DOMSTATE_NOTIFY_CMD_DESTROY` of lines 181-182. -/
def destroy_call (env : Env) : Call :=
  Call.genl_send_simple env.genl_ctrl_resolve DOMSTATE_NOTIFY_CMD_DESTROY
    DOMSTATE_NOTIFY_GENL_VERSION 0

/-! ## Concrete environments -/

/-- The environment in which everything succeeds up to the group join, which
returns -1. -/
def env_join_fails : Env :=
  { errno := 0, nl_socket_alloc := true, genl_connect := 0, genl_ctrl_resolve := 25,
    genl_ctrl_resolve_grp := 6, nl_socket_add_membership := -1, send_open := 20,
    iterations := [], send_destroy := 20 }

/-- Every call of the trace that satisfies `q` has a call satisfying `p`
somewhere before it. -/
def precededBy (p q : Call → Bool) : List Call → Bool
  | [] => true
  | c :: rest => !q c && (p c || precededBy p q rest)

/-- Setup succeeds, the first receive finds nothing to read and returns
`-NLE_AGAIN`, then SIGINT is delivered before the next test of the flag. -/
def env_sigint : Env :=
  { errno := 0, nl_socket_alloc := true, genl_connect := 0, genl_ctrl_resolve := 25,
    genl_ctrl_resolve_grp := 6, nl_socket_add_membership := 0, send_open := 20,
    iterations := [⟨[], -4, []⟩, ⟨[Signal.SIGINT], 0, []⟩], send_destroy := 20 }

/-- Number of calls `main` makes before the call of a setup step. -/
def SetupStep.position : SetupStep → Nat
  | .connect => 7
  | .resolve => 8
  | .resolve_grp => 9
  | .add_membership => 10

/-! ## The interrupt flag as a state machine -/

/-- The two kinds of step that write `interrupted`: the delivery of a monitored
signal between two passes of the loop, and one pass of the loop (with the value
the receive returns and the signals delivered while it is in progress). -/
inductive FlagStep
  | signal (s : Signal)
  | iteration (recv : Int) (during : List Signal)
  deriving DecidableEq, Repr

def FlagStep.isIteration : FlagStep → Bool
  | .iteration _ _ => true
  | .signal _ => false

/-- Effect of one step on `interrupted`. -/
def flag_step (interrupted : Int) : FlagStep → Int
  | .signal s => close_handler s.signo interrupted
  | .iteration r during =>
    match loop_body interrupted r during with
    | none => interrupted
    | some (flag, _) => flag

/-- Value of `interrupted` after a sequence of steps; line 42 starts it at 0. -/
def flag_after (steps : List FlagStep) : Int :=
  steps.foldl flag_step 0

/-! ## Attributes of a received message

A pointer into the attribute data of a message is modelled by the bytes from
that address to the end of the attribute data. The walk below follows libnl3
(`lib/attr.c`): `nla_ok`, `nla_next`, `nla_type`, `nla_parse` called with a
null policy as on line 84, and `nla_get_u32`. Integers are read in the byte
order of a little-endian host. -/

/-- Size of `struct nlattr`: `nla_len` and `nla_type`, 16 bits each. -/
def NLA_HDRLEN : Nat := 4

/-- Rounds a length up to the alignment `NLA_ALIGNTO` = 4. -/
def NLA_ALIGN (len : Nat) : Nat := (len + 3) / 4 * 4

/-- The 16-bit field at an address. -/
def read_u16 (p : List Nat) : Nat := p.getD 0 0 % 256 + 256 * (p.getD 1 0 % 256)

/-- The field `nla_len` of the attribute at `p`. -/
def nla_len (p : List Nat) : Nat := read_u16 p

/-- The libnl function `nla_type`: the field `nla_type` without the two flag
bits `NLA_F_NESTED` and `NLA_F_NET_BYTEORDER`, that is its low 14 bits. -/
def nla_type (p : List Nat) : Nat := read_u16 (p.drop 2) % 16384

/-- The libnl function `nla_ok`: the header fits in the remaining bytes and
the length it announces is at least a header and at most what remains. -/
def nla_ok (p : List Nat) (remaining : Int) : Bool :=
  decide ((NLA_HDRLEN : Int) ≤ remaining) && decide (NLA_HDRLEN ≤ nla_len p) &&
    decide ((nla_len p : Int) ≤ remaining)

/-- The libnl function `nla_next`: the address after the attribute and its padding. -/
def nla_next (p : List Nat) : List Nat := p.drop (NLA_ALIGN (nla_len p))

/-- The array `attr` of line 79: for each index the attribute found, if any. -/
abbrev AttrTable := Nat → Option (List Nat)

/-- The loop `nla_for_each_attr` inside `nla_parse` with a null policy: every
attribute that passes `nla_ok` and whose type is at most `maxtype` is stored at
the index of its type, a later one replacing an earlier one; no check of the
payload is made. Each round consumes at least four of the remaining bytes, so
`fuel` rounds are enough when `fuel` is the length of the data. -/
def nla_walk (maxtype : Nat) : Nat → List Nat → Int → AttrTable → AttrTable
  | 0, _, _, tb => tb
  | fuel + 1, p, rem, tb =>
    if nla_ok p rem then
      let type := nla_type p
      let tb' : AttrTable := if type > maxtype then tb else fun i => if i = type then some p else tb i
      nla_walk maxtype fuel (nla_next p) (rem - NLA_ALIGN (nla_len p)) tb'
    else tb

/-- The libnl function `nla_parse` with a null policy. -/
def nla_parse (maxtype : Nat) (head : List Nat) (len : Nat) : AttrTable :=
  nla_walk maxtype len head len (fun _ => none)

/-- The byte at offset `k` from an address: a byte of the attribute data as long
as the offset stays inside it, and past its end the byte the memory holds
there, `beyond i` being the byte at offset `i` from the end of the attribute
data. -/
def byte_at (p : List Nat) (beyond : Nat → Nat) (k : Nat) : Nat :=
  if k < p.length then p.getD k 0 % 256 else beyond (k - p.length) % 256

/-- The libnl function `nla_get_u32`: the 32-bit value in the four bytes right
after the header of the attribute, whatever the length the header announces. -/
def nla_get_u32 (p : List Nat) (beyond : Nat → Nat) : Nat :=
  byte_at p beyond NLA_HDRLEN + 256 * byte_at p beyond (NLA_HDRLEN + 1) +
    65536 * byte_at p beyond (NLA_HDRLEN + 2) + 16777216 * byte_at p beyond (NLA_HDRLEN + 3)

/-- The value an `int` of 32 bits in two's complement holds when it is given
the bits of an unsigned 32-bit value: bits 0 to 30 weigh as in the unsigned
value, bit 31 weighs -2^31. -/
def to_int32 (v : Nat) : Int :=
  ((v % 2147483648 : Nat) : Int) - 2147483648 * ((v / 2147483648 % 2 : Nat) : Int)

/-- Text written by the conversion `%d` of `printf` for an unsigned 32-bit
argument, with `int` of 32 bits. -/
def printf_d (v : Nat) : String := toString (to_int32 v)

/-- A received generic netlink message as `callback_message` reads it: the
field `cmd` of its `genlmsghdr`, the bytes of its attribute data
(`genlmsg_attrdata` and `genlmsg_attrlen` of lines 84-85), and the bytes the
memory holds after the attribute data, which `nla_get_u32` reads when an
attribute ends less than four bytes after its header. -/
structure genl_msg where
  cmd : Nat
  attrdata : List Nat
  beyond : Nat → Nat

/-- One of the three blocks of lines 87-100: when the attribute is present, its
value is read and printed after the key. -/
def print_attr (out : String) (key : String) (beyond : Nat → Nat) :
    Option (List Nat) → String
  | some p => out ++ " " ++ key ++ " = " ++ printf_d (nla_get_u32 p beyond)
  | none => out

/-- The function `callback_message`, lines 76-105: the text written to the
standard output and the value returned. -/
def callback_message (m : genl_msg) : String × Int :=
  let out := "cmd = " ++ toString (m.cmd % 256)
  let attr := nla_parse DOMSTATE_NOTIFY_ATTR_MAX m.attrdata m.attrdata.length
  let out := print_attr out "domain_id" m.beyond (attr DOMSTATE_NOTIFY_ATTR_DOMAIN_ID)
  let out := print_attr out "state" m.beyond (attr DOMSTATE_NOTIFY_ATTR_STATE)
  let out := print_attr out "extra" m.beyond (attr DOMSTATE_NOTIFY_ATTR_EXTRA)
  let out := out ++ "\n"
  (out, NL_OK)

/-! ## Well-formed attribute data -/

/-- The four bytes of an unsigned 32-bit value. -/
def le32 (v : Nat) : List Nat :=
  [v % 256, v / 256 % 256, v / 65536 % 256, v / 16777216 % 256]

/-- An attribute with a 32-bit payload: length 8, type, value. -/
def encode_u32 (type v : Nat) : List Nat :=
  [8, 0, type % 256, type / 256 % 256] ++ le32 v

/-- Attribute data made of attributes with 32-bit payloads, given as pairs of
type and value. -/
def encode_attrs : List (Nat × Nat) → List Nat
  | [] => []
  | (type, v) :: rest => encode_u32 type v ++ encode_attrs rest

/-- The value of the attribute of a type in a list of attributes (of the last
one, should the type occur more than once). -/
def attr_value (type : Nat) : List (Nat × Nat) → Option Nat
  | [] => none
  | (type', v) :: rest =>
    match attr_value type rest with
    | some w => some w
    | none => if type' = type then some v else none

/-- Attribute data in which DOMAIN_ID has a payload of two bytes (07 00)
followed by two bytes of padding. -/
def msg_short_domain_id : genl_msg := ⟨1, [6, 0, 1, 0, 7, 0, 0, 0], fun _ => 0⟩

/-- Attribute data in which DOMAIN_ID has no payload at all and is followed by
STATE = 5. -/
def msg_empty_domain_id : genl_msg := ⟨1, [4, 0, 1, 0, 8, 0, 2, 0, 5, 0, 0, 0], fun _ => 0⟩

/-- Attribute data that ends right after the header of DOMAIN_ID, in memory
that holds the bytes ff ff ff ff after it. -/
def msg_truncated_domain_id : genl_msg := ⟨1, [4, 0, 1, 0], fun _ => 255⟩

/-- Attribute data in which DOMAIN_ID announces six bytes and the data ends
there, without padding, in memory that holds zero bytes after it. -/
def msg_unpadded_domain_id : genl_msg := ⟨1, [6, 0, 1, 0, 7, 0], fun _ => 0⟩

/-- The message cmd = 1, DOMAIN_ID = 7, STATE = 2, no EXTRA. -/
def msg_example : genl_msg := ⟨1, encode_attrs [(1, 7), (2, 2)], fun _ => 0⟩

/-- The message cmd = 1, STATE = 0x80000000. -/
def msg_large_state : genl_msg := ⟨1, encode_attrs [(2, 2147483648)], fun _ => 0⟩

/-- The address at which the walk finds the attribute of a type in
`encode_attrs attrs ++ junk` (the last one of that type). -/
def attr_ptr (type : Nat) : List (Nat × Nat) → List Nat → Option (List Nat)
  | [], _ => none
  | (type', v) :: rest, junk =>
    match attr_ptr type rest junk with
    | some p => some p
    | none => if type' = type then some (encode_attrs ((type', v) :: rest) ++ junk) else none

/-- The segment the value of an attribute contributes to the line: nothing when
the attribute is absent; otherwise the key and the decimal form of the value
when it is below 2^31, of the value minus 2^32 when it is not. -/
def segment (key : String) : Option Nat → String
  | none => ""
  | some v =>
    " " ++ key ++ " = " ++
      (if v < 2147483648 then toString v else toString ((v : Int) - 4294967296))

/-- The line `callback_message` is to print for a command and the values of
the three attributes, absent ones given as `none`. -/
def expected_line (cmd : Nat) (attrs : List (Nat × Nat)) : String :=
  "cmd = " ++ toString (cmd % 256) ++
    segment "domain_id" (attr_value DOMSTATE_NOTIFY_ATTR_DOMAIN_ID attrs) ++
    segment "state" (attr_value DOMSTATE_NOTIFY_ATTR_STATE attrs) ++
    segment "extra" (attr_value DOMSTATE_NOTIFY_ATTR_EXTRA attrs) ++ "\n"

/-! ## Shape of the runs of `main` -/

lemma recv_loop_trace (its : List Iteration) (flag ret : Int) (t : List Call) :
    ∃ n, (recv_loop flag ret t its).trace = t ++ List.replicate n Call.nl_recvmsgs_default := by
  induction its generalizing flag ret t with
  | nil => exact ⟨0, by simp [recv_loop]⟩
  | cons it rest ih =>
    unfold recv_loop
    cases h : loop_body (deliver it.before flag) it.recv it.during with
    | none => exact ⟨0, by simp [h]⟩
    | some p =>
      obtain ⟨f1, r1⟩ := p
      obtain ⟨n, hn⟩ := ih f1 r1 (t ++ [Call.nl_recvmsgs_default])
      refine ⟨n + 1, ?_⟩
      simp only [h, hn, List.append_assoc, List.replicate_succ, List.singleton_append]

lemma main_entersLoop (env : Env) (h : env.entersLoop) :
    main env =
      match (recv_loop 0 env.send_open (setup_calls env) env.iterations).ret with
      | none => ⟨(recv_loop 0 env.send_open (setup_calls env) env.iterations).trace,
          Outcome.running⟩
      | some ret =>
        ⟨(recv_loop 0 env.send_open (setup_calls env) env.iterations).trace ++
          [destroy_call env, Call.nl_close, Call.nl_socket_free], Outcome.returned ret⟩ := by
  obtain ⟨h0, h1, h2, h3, h4, h5⟩ := h
  simp only [main, h0, not_lt.mpr h1, not_lt.mpr h2, not_lt.mpr h3, not_lt.mpr h4,
    not_lt.mpr h5, Bool.not_true, Bool.false_eq_true, if_false, e_exit, setup_calls,
    destroy_call, List.cons_append, List.nil_append, List.append_assoc]

/-! ## Setup failures -/

/-- C1: in every run in which one of the setup steps genl_connect,
genl_ctrl_resolve, genl_ctrl_resolve_grp, nl_socket_add_membership is reached and
returns a negative value, the trace splits at the call of that step into a part
before it and a part after it; the part after it holds no setup step, no send
and no receive, the whole trace holds no send (so neither OPEN nor DESTROY is
sent) and no receive, nl_close is called exactly once, and main returns the
value of the failed step. -/
theorem setup_failure_goes_to_cleanup (env : Env) (s : SetupStep) (h : env.failsAt s) :
    ∃ pre post,
      (main env).trace = pre ++ s.call env :: post ∧
      s.call env ∉ pre ∧
      (∀ c ∈ post, c.isSetupStep = false ∧ c.isSend = false ∧ c.isRecv = false) ∧
      (∀ c ∈ (main env).trace, c.isSend = false ∧ c.isRecv = false) ∧
      (main env).trace.count Call.nl_close = 1 ∧
      (main env).outcome = Outcome.returned (s.result env) := by
  cases s with
  | connect =>
    obtain ⟨h0, h1⟩ := h
    refine ⟨[Call.sigaction .SIGHUP, Call.sigaction .SIGTERM, Call.sigaction .SIGINT,
      Call.sigaction .SIGALRM, Call.nl_socket_alloc, Call.nl_socket_disable_seq_check,
      Call.nl_socket_modify_cb],
      [Call.fprintf_stderr "Failed to connect to netlink socket.\n", Call.nl_close,
        Call.nl_socket_free], ?_⟩
    simp [main, e_exit, h0, h1, SetupStep.call, SetupStep.result, Call.isSetupStep,
      Call.isSend, Call.isRecv]
  | resolve =>
    obtain ⟨h0, h1, h2⟩ := h
    refine ⟨[Call.sigaction .SIGHUP, Call.sigaction .SIGTERM, Call.sigaction .SIGINT,
      Call.sigaction .SIGALRM, Call.nl_socket_alloc, Call.nl_socket_disable_seq_check,
      Call.nl_socket_modify_cb, Call.genl_connect],
      [Call.fprintf_stderr
        ("Unable to resolve family name " ++ DOMSTATE_NOTIFY_GENL_FAMILY_NAME ++ "\n"),
        Call.nl_close, Call.nl_socket_free], ?_⟩
    simp [main, e_exit, h0, not_lt.mpr h1, h2, SetupStep.call, SetupStep.result,
      Call.isSetupStep, Call.isSend, Call.isRecv]
  | resolve_grp =>
    obtain ⟨h0, h1, h2, h3⟩ := h
    refine ⟨[Call.sigaction .SIGHUP, Call.sigaction .SIGTERM, Call.sigaction .SIGINT,
      Call.sigaction .SIGALRM, Call.nl_socket_alloc, Call.nl_socket_disable_seq_check,
      Call.nl_socket_modify_cb, Call.genl_connect,
      Call.genl_ctrl_resolve DOMSTATE_NOTIFY_GENL_FAMILY_NAME],
      [Call.fprintf_stderr ("Unable to resolve group " ++ DOMSTATE_NOTIFY_MCGROUP_NAME ++ "\n"),
        Call.nl_close, Call.nl_socket_free], ?_⟩
    simp [main, e_exit, h0, not_lt.mpr h1, not_lt.mpr h2, h3, SetupStep.call,
      SetupStep.result, Call.isSetupStep, Call.isSend, Call.isRecv]
  | add_membership =>
    obtain ⟨h0, h1, h2, h3, h4⟩ := h
    refine ⟨[Call.sigaction .SIGHUP, Call.sigaction .SIGTERM, Call.sigaction .SIGINT,
      Call.sigaction .SIGALRM, Call.nl_socket_alloc, Call.nl_socket_disable_seq_check,
      Call.nl_socket_modify_cb, Call.genl_connect,
      Call.genl_ctrl_resolve DOMSTATE_NOTIFY_GENL_FAMILY_NAME,
      Call.genl_ctrl_resolve_grp DOMSTATE_NOTIFY_GENL_FAMILY_NAME DOMSTATE_NOTIFY_MCGROUP_NAME],
      [Call.fprintf_stderr ("Unable to join group " ++ DOMSTATE_NOTIFY_MCGROUP_NAME ++ "\n"),
        Call.nl_close, Call.nl_socket_free], ?_⟩
    simp [main, e_exit, h0, not_lt.mpr h1, not_lt.mpr h2, not_lt.mpr h3, h4, SetupStep.call,
      SetupStep.result, Call.isSetupStep, Call.isSend, Call.isRecv]

theorem setup_failure_goes_to_cleanup_witness :
    env_join_fails.failsAt SetupStep.add_membership ∧
    ∃ pre post,
      (main env_join_fails).trace = pre ++ SetupStep.add_membership.call env_join_fails :: post ∧
      SetupStep.add_membership.call env_join_fails ∉ pre ∧
      (∀ c ∈ post, c.isSetupStep = false ∧ c.isSend = false ∧ c.isRecv = false) ∧
      (∀ c ∈ (main env_join_fails).trace, c.isSend = false ∧ c.isRecv = false) ∧
      (main env_join_fails).trace.count Call.nl_close = 1 ∧
      (main env_join_fails).outcome =
        Outcome.returned (SetupStep.add_membership.result env_join_fails) :=
  ⟨by simp [Env.failsAt, env_join_fails],
    setup_failure_goes_to_cleanup env_join_fails SetupStep.add_membership
      (by simp [Env.failsAt, env_join_fails])⟩

lemma precededBy_sound (p q : Call → Bool) (t : List Call) (h : precededBy p q t = true)
    (l1 : List Call) (c : Call) (l2 : List Call) (ht : t = l1 ++ c :: l2) (hq : q c = true) :
    ∃ r ∈ l1, p r = true := by
  induction t generalizing l1 with
  | nil => simp at ht
  | cons a rest ih =>
    simp only [precededBy, Bool.and_eq_true, Bool.not_eq_true', Bool.or_eq_true] at h
    cases l1 with
    | nil =>
      simp only [List.nil_append, List.cons.injEq] at ht
      rw [ht.1, hq] at h
      exact absurd h.1 (by simp)
    | cons b l1' =>
      simp only [List.cons_append, List.cons.injEq] at ht
      rcases h.2 with hp | hrest
      · exact ⟨b, List.mem_cons_self _ _, by rw [← ht.1]; exact hp⟩
      · obtain ⟨r, hr, hpr⟩ := ih hrest l1' ht.2
        exact ⟨r, List.mem_cons_of_mem _ hr, hpr⟩

lemma precededBy_append (p q : Call → Bool) (a b : List Call) (h : precededBy p q a = true)
    (hp : ∃ r ∈ a, p r = true) : precededBy p q (a ++ b) = true := by
  induction a with
  | nil => simp at hp
  | cons x rest ih =>
    simp only [precededBy, Bool.and_eq_true, Bool.not_eq_true', Bool.or_eq_true] at h
    simp only [List.cons_append, precededBy, Bool.and_eq_true, Bool.not_eq_true',
      Bool.or_eq_true]
    refine ⟨h.1, ?_⟩
    by_cases hx : p x = true
    · exact Or.inl hx
    · right
      rcases h.2 with h2 | h2
      · exact absurd h2 hx
      · obtain ⟨r, hr, hpr⟩ := hp
        rcases List.mem_cons.1 hr with rfl | hr
        · exact absurd hpr hx
        · exact ih h2 ⟨r, hr, hpr⟩

lemma main_alloc_cases (env : Env) (h0 : env.nl_socket_alloc = true) :
    (∃ s, env.failsAt s) ∨
      (0 ≤ env.genl_connect ∧ 0 ≤ env.genl_ctrl_resolve ∧ 0 ≤ env.genl_ctrl_resolve_grp ∧
        0 ≤ env.nl_socket_add_membership ∧ env.send_open < 0) ∨
      env.entersLoop := by
  by_cases h1 : env.genl_connect < 0
  · exact Or.inl ⟨.connect, h0, h1⟩
  by_cases h2 : env.genl_ctrl_resolve < 0
  · exact Or.inl ⟨.resolve, h0, not_lt.1 h1, h2⟩
  by_cases h3 : env.genl_ctrl_resolve_grp < 0
  · exact Or.inl ⟨.resolve_grp, h0, not_lt.1 h1, not_lt.1 h2, h3⟩
  by_cases h4 : env.nl_socket_add_membership < 0
  · exact Or.inl ⟨.add_membership, h0, not_lt.1 h1, not_lt.1 h2, not_lt.1 h3, h4⟩
  by_cases h5 : env.send_open < 0
  · exact Or.inr (Or.inl ⟨not_lt.1 h1, not_lt.1 h2, not_lt.1 h3, not_lt.1 h4, h5⟩)
  · exact Or.inr (Or.inr ⟨h0, not_lt.1 h1, not_lt.1 h2, not_lt.1 h3, not_lt.1 h4, not_lt.1 h5⟩)

/-- The trace of a run in which a setup step fails. -/
lemma main_failsAt (env : Env) (s : SetupStep) (h : env.failsAt s) :
    ∃ msg, main env =
      ⟨(setup_calls env).take s.position ++
        [s.call env, Call.fprintf_stderr msg, Call.nl_close, Call.nl_socket_free],
        Outcome.returned (s.result env)⟩ := by
  cases s with
  | connect =>
    obtain ⟨h0, h1⟩ := h
    exact ⟨_, by simp [main, e_exit, h0, h1, SetupStep.call, SetupStep.result, setup_calls,
      SetupStep.position]; rfl⟩
  | resolve =>
    obtain ⟨h0, h1, h2⟩ := h
    exact ⟨_, by simp [main, e_exit, h0, not_lt.mpr h1, h2, SetupStep.call, SetupStep.result,
      setup_calls, SetupStep.position]; rfl⟩
  | resolve_grp =>
    obtain ⟨h0, h1, h2, h3⟩ := h
    exact ⟨_, by simp [main, e_exit, h0, not_lt.mpr h1, not_lt.mpr h2, h3, SetupStep.call,
      SetupStep.result, setup_calls, SetupStep.position]; rfl⟩
  | add_membership =>
    obtain ⟨h0, h1, h2, h3, h4⟩ := h
    exact ⟨_, by simp [main, e_exit, h0, not_lt.mpr h1, not_lt.mpr h2, not_lt.mpr h3, h4,
      SetupStep.call, SetupStep.result, setup_calls, SetupStep.position]; rfl⟩

/-- The trace of a run in which the send of OPEN fails. -/
lemma main_open_fails (env : Env) (h0 : env.nl_socket_alloc = true)
    (h : 0 ≤ env.genl_connect ∧ 0 ≤ env.genl_ctrl_resolve ∧ 0 ≤ env.genl_ctrl_resolve_grp ∧
      0 ≤ env.nl_socket_add_membership ∧ env.send_open < 0) :
    main env =
      ⟨(setup_calls env).take 12 ++
        [Call.fprintf_stderr "Unable to send connect command!\n", Call.nl_close,
          Call.nl_socket_free], Outcome.returned env.send_open⟩ := by
  obtain ⟨h1, h2, h3, h4, h5⟩ := h
  simp [main, e_exit, h0, not_lt.mpr h1, not_lt.mpr h2, not_lt.mpr h3, not_lt.mpr h4, h5,
    setup_calls]

/-! ## The cleanup path -/

/-- The four shapes a trace of `main` can have. -/
lemma main_trace_shape (env : Env) :
    (env.nl_socket_alloc = false ∧ ∃ msg, (main env).trace =
        (setup_calls env).take 5 ++ [Call.fprintf_stderr msg, Call.exit EXIT_FAILURE]) ∨
    (∃ s msg, env.failsAt s ∧ (main env).trace = (setup_calls env).take s.position ++
        [s.call env, Call.fprintf_stderr msg, Call.nl_close, Call.nl_socket_free]) ∨
    (0 ≤ env.nl_socket_add_membership ∧ ∃ msg, (main env).trace = (setup_calls env).take 12 ++
        [Call.fprintf_stderr msg, Call.nl_close, Call.nl_socket_free]) ∨
    (0 ≤ env.nl_socket_add_membership ∧ ∃ n tail, (main env).trace =
        setup_calls env ++ (List.replicate n Call.nl_recvmsgs_default ++ tail) ∧
        (tail = [] ∨ tail = [destroy_call env, Call.nl_close, Call.nl_socket_free])) := by
  cases h0 : env.nl_socket_alloc with
  | false => exact Or.inl ⟨rfl, _, by simp [main, h0, setup_calls]; rfl⟩
  | true =>
    rcases main_alloc_cases env h0 with ⟨s, hs⟩ | hopen | hloop
    · obtain ⟨msg, hm⟩ := main_failsAt env s hs
      exact Or.inr (Or.inl ⟨s, msg, hs, by rw [hm]⟩)
    · exact Or.inr (Or.inr (Or.inl ⟨hopen.2.2.2.1, _, by rw [main_open_fails env h0 hopen]⟩))
    · refine Or.inr (Or.inr (Or.inr ⟨hloop.2.2.2.2.1, ?_⟩))
      obtain ⟨n, hn⟩ := recv_loop_trace env.iterations 0 env.send_open (setup_calls env)
      rw [main_entersLoop env hloop]
      cases hr : (recv_loop 0 env.send_open (setup_calls env) env.iterations).ret with
      | none => exact ⟨n, [], by simp [hn], Or.inl rfl⟩
      | some ret => exact ⟨n, _, by simp [hn], Or.inr rfl⟩

/-- C7: in the trace of every run of main, every call of genl_ctrl_resolve_grp
and every send has the call genl_ctrl_resolve of the family name before it;
every send of OPEN has a call of nl_socket_add_membership before it; and a send
of OPEN occurs only when the join returned a non-negative value, and it is
the send with the family id returned by genl_ctrl_resolve, protocol version 1
and flags 0. -/
theorem open_sequencing (env : Env) :
    (∀ l1 c l2, (main env).trace = l1 ++ c :: l2 → (c.isResolveGrp || c.isSend) = true →
      ∃ r ∈ l1, r = Call.genl_ctrl_resolve DOMSTATE_NOTIFY_GENL_FAMILY_NAME) ∧
    (∀ l1 c l2, (main env).trace = l1 ++ c :: l2 →
      c.isSendOf DOMSTATE_NOTIFY_CMD_OPEN = true → ∃ j ∈ l1, j.isJoin = true) ∧
    (∀ c ∈ (main env).trace, c.isSendOf DOMSTATE_NOTIFY_CMD_OPEN = true →
      0 ≤ env.nl_socket_add_membership ∧
        c = Call.genl_send_simple env.genl_ctrl_resolve DOMSTATE_NOTIFY_CMD_OPEN 1 0) := by
  refine ⟨?_, ?_, ?_⟩
  · intro l1 c l2 ht hq
    have key : precededBy (fun c => c == Call.genl_ctrl_resolve DOMSTATE_NOTIFY_GENL_FAMILY_NAME)
        (fun c => c.isResolveGrp || c.isSend) (main env).trace = true := by
      rcases main_trace_shape env with ⟨_, msg, h⟩ | ⟨s, msg, _, h⟩ | ⟨_, msg, h⟩ |
        ⟨_, n, tail, h, _⟩
      · rw [h]; simp [setup_calls, precededBy, Call.isResolveGrp, Call.isSend]
      · rw [h]
        cases s <;>
          simp [setup_calls, precededBy, Call.isResolveGrp, Call.isSend, SetupStep.position,
            SetupStep.call]
      · rw [h]; simp [setup_calls, precededBy, Call.isResolveGrp, Call.isSend]
      · rw [h]
        apply precededBy_append
        · simp [setup_calls, precededBy, Call.isResolveGrp, Call.isSend]
        · exact ⟨Call.genl_ctrl_resolve DOMSTATE_NOTIFY_GENL_FAMILY_NAME,
            by simp [setup_calls], by simp⟩
    obtain ⟨r, hr, hp⟩ := precededBy_sound _ _ _ key l1 c l2 ht hq
    exact ⟨r, hr, by simpa using hp⟩
  · intro l1 c l2 ht hq
    have key : precededBy Call.isJoin (Call.isSendOf DOMSTATE_NOTIFY_CMD_OPEN)
        (main env).trace = true := by
      rcases main_trace_shape env with ⟨_, msg, h⟩ | ⟨s, msg, _, h⟩ | ⟨_, msg, h⟩ |
        ⟨_, n, tail, h, _⟩
      · rw [h]; simp [setup_calls, precededBy, Call.isJoin, Call.isSendOf]
      · rw [h]
        cases s <;>
          simp [setup_calls, precededBy, Call.isJoin, Call.isSendOf, SetupStep.position,
            SetupStep.call]
      · rw [h]; simp [setup_calls, precededBy, Call.isJoin, Call.isSendOf]
      · rw [h]
        apply precededBy_append
        · simp [setup_calls, precededBy, Call.isJoin, Call.isSendOf]
        · exact ⟨Call.nl_socket_add_membership env.genl_ctrl_resolve_grp,
            by simp [setup_calls], by simp [Call.isJoin]⟩
    exact precededBy_sound _ _ _ key l1 c l2 ht hq
  · rcases main_trace_shape env with ⟨_, msg, h⟩ | ⟨s, msg, _, h⟩ | ⟨hj, msg, h⟩ |
      ⟨hj, n, tail, h, htail⟩
    · rw [h]; simp [setup_calls, Call.isSendOf]
    · rw [h]
      cases s <;> simp [setup_calls, Call.isSendOf, SetupStep.position, SetupStep.call]
    · rw [h]
      simp [setup_calls, Call.isSendOf, hj, DOMSTATE_NOTIFY_GENL_VERSION]
    · rw [h]
      rcases htail with rfl | rfl
      · simp [setup_calls, Call.isSendOf, hj, DOMSTATE_NOTIFY_GENL_VERSION,
          DOMSTATE_NOTIFY_CMD_OPEN, DOMSTATE_NOTIFY_CMD_DESTROY, List.mem_replicate]
      · simp only [setup_calls, destroy_call, List.mem_append, List.mem_cons,
          List.mem_replicate, List.mem_singleton, List.not_mem_nil, or_false]
        intro c hc hq
        rcases hc with hc | hc | hc
        · rcases hc with rfl | rfl | rfl | rfl | rfl | rfl | rfl | rfl | rfl | rfl | rfl |
            rfl | rfl <;>
            first
              | exact ⟨hj, rfl⟩
              | exact absurd hq (by simp [Call.isSendOf])
        · rw [hc.2] at hq; exact absurd hq (by simp [Call.isSendOf])
        · rcases hc with rfl | rfl | rfl <;>
            exact absurd hq (by simp [Call.isSendOf, DOMSTATE_NOTIFY_CMD_OPEN,
              DOMSTATE_NOTIFY_CMD_DESTROY])

/-! ## Shutdown -/

/-- C8: in every run of main in which the receive loop is entered and then
stops, the trace ends with the send of DESTROY, nl_close and nl_socket_free, in
this order, everything before (the setup calls and every receive) holds no send
of DESTROY, and the run does not depend on the value the send of DESTROY
returns: replacing that value by any other one gives the same trace and the
same value returned by main. -/
theorem destroy_best_effort (env : Env) (h : env.entersLoop)
    (hstop : (main env).outcome ≠ Outcome.running) :
    (∃ n, (main env).trace = (setup_calls env ++ List.replicate n Call.nl_recvmsgs_default) ++
        [Call.genl_send_simple env.genl_ctrl_resolve DOMSTATE_NOTIFY_CMD_DESTROY
          DOMSTATE_NOTIFY_GENL_VERSION 0, Call.nl_close, Call.nl_socket_free] ∧
      ∀ c ∈ setup_calls env ++ List.replicate n Call.nl_recvmsgs_default,
        c.isSendOf DOMSTATE_NOTIFY_CMD_DESTROY = false) ∧
    ∀ d : Int, main { env with send_destroy := d } = main env := by
  refine ⟨?_, fun d => rfl⟩
  obtain ⟨n, hn⟩ := recv_loop_trace env.iterations 0 env.send_open (setup_calls env)
  rw [main_entersLoop env h] at hstop ⊢
  cases hr : (recv_loop 0 env.send_open (setup_calls env) env.iterations).ret with
  | none => simp [hr] at hstop
  | some ret =>
    refine ⟨n, by simp [hn, destroy_call], ?_⟩
    simp [setup_calls, Call.isSendOf, List.mem_replicate, DOMSTATE_NOTIFY_CMD_OPEN,
      DOMSTATE_NOTIFY_CMD_DESTROY]

theorem destroy_best_effort_witness :
    env_sigint.entersLoop ∧ (main env_sigint).outcome ≠ Outcome.running ∧
    (∃ n, (main env_sigint).trace =
        (setup_calls env_sigint ++ List.replicate n Call.nl_recvmsgs_default) ++
        [Call.genl_send_simple env_sigint.genl_ctrl_resolve DOMSTATE_NOTIFY_CMD_DESTROY
          DOMSTATE_NOTIFY_GENL_VERSION 0, Call.nl_close, Call.nl_socket_free] ∧
      ∀ c ∈ setup_calls env_sigint ++ List.replicate n Call.nl_recvmsgs_default,
        c.isSendOf DOMSTATE_NOTIFY_CMD_DESTROY = false) ∧
    ∀ d : Int, main { env_sigint with send_destroy := d } = main env_sigint :=
  ⟨by simp [Env.entersLoop, env_sigint], by decide,
    destroy_best_effort env_sigint (by simp [Env.entersLoop, env_sigint]) (by decide)⟩

/-- C3, evaluated on the code: setup succeeds, the one receive attempt finds
nothing to read and returns -NLE_AGAIN (-4), SIGINT is delivered and stops the
loop; DESTROY is sent and the socket is closed and freed, but main returns -4,
the value left in ret by the last receive, and not 0. -/
theorem sigint_shutdown_returns_last_recv :
    main env_sigint =
      ⟨setup_calls env_sigint ++ [Call.nl_recvmsgs_default,
          Call.genl_send_simple 25 DOMSTATE_NOTIFY_CMD_DESTROY DOMSTATE_NOTIFY_GENL_VERSION 0,
          Call.nl_close, Call.nl_socket_free],
        Outcome.returned (-NLE_AGAIN)⟩ ∧
    (main env_sigint).outcome ≠ Outcome.returned 0 := by
  decide

/-! ## The interrupt flag -/

lemma signo_ne_zero (s : Signal) : s.signo ≠ 0 := by
  cases s <;> simp [Signal.signo]

lemma deliver_ne_zero (sigs : List Signal) (flag : Int) (h : flag ≠ 0) :
    deliver sigs flag ≠ 0 := by
  induction sigs generalizing flag with
  | nil => simpa [deliver] using h
  | cons s rest ih =>
    have := ih (close_handler s.signo flag) (by simpa [close_handler] using signo_ne_zero s)
    simpa [deliver] using this

lemma flag_step_ne_zero (flag : Int) (e : FlagStep) (h : flag ≠ 0) : flag_step flag e ≠ 0 := by
  cases e with
  | signal s => simpa [flag_step, close_handler] using signo_ne_zero s
  | iteration r during => simp [flag_step, loop_body, h]

lemma foldl_flag_step_ne_zero (steps : List FlagStep) (flag : Int) (h : flag ≠ 0) :
    steps.foldl flag_step flag ≠ 0 := by
  induction steps generalizing flag with
  | nil => simpa using h
  | cons e rest ih => exact ih _ (flag_step_ne_zero flag e h)

lemma foldl_flag_step_iterations (steps : List FlagStep) (flag : Int) (h : flag ≠ 0)
    (hs : ∀ e ∈ steps, e.isIteration = true) : steps.foldl flag_step flag = flag := by
  induction steps with
  | nil => rfl
  | cons e rest ih =>
    have he : flag_step flag e = flag := by
      cases e with
      | signal s => simpa [FlagStep.isIteration] using hs (.signal s) (List.mem_cons_self _ _)
      | iteration r during => simp [flag_step, loop_body, h]
    rw [List.foldl_cons, he]
    exact ih fun e' he' => hs e' (List.mem_cons_of_mem _ he')

/-- C4, as stated, fails: after SIGINT has been delivered the flag holds 2, and
the delivery of SIGTERM then changes it to 15; and a SIGINT delivered while a
receive is in progress is overwritten by 1 when that receive fails. -/
theorem second_signal_overwrites_flag :
    flag_after [FlagStep.signal Signal.SIGINT] = Signal.SIGINT.signo ∧
      flag_after [FlagStep.signal Signal.SIGINT, FlagStep.signal Signal.SIGTERM] ≠
        Signal.SIGINT.signo ∧
      flag_after [FlagStep.iteration (-1) [Signal.SIGINT]] ≠ Signal.SIGINT.signo := by
  decide

/-- C4, amended: the flag is 0 at start; right after the delivery of a monitored
signal between two passes of the loop it holds that signal's number; from then
on it is never 0 again, whatever steps follow; and it keeps that number through
all later passes of the loop, as long as no other signal is delivered (a later
signal stores its own number). -/
theorem interrupt_flag_transitions (pre post : List FlagStep) (s : Signal) :
    flag_after [] = 0 ∧
      flag_after (pre ++ [FlagStep.signal s]) = s.signo ∧
      flag_after (pre ++ FlagStep.signal s :: post) ≠ 0 ∧
      ((∀ e ∈ post, e.isIteration = true) →
        flag_after (pre ++ FlagStep.signal s :: post) = s.signo) := by
  refine ⟨rfl, ?_, ?_, ?_⟩
  · simp [flag_after, List.foldl_append, flag_step, close_handler]
  · simp only [flag_after, List.foldl_append, List.foldl_cons]
    exact foldl_flag_step_ne_zero _ _ (by simpa [flag_step, close_handler] using signo_ne_zero s)
  · intro hpost
    simp only [flag_after, List.foldl_append, List.foldl_cons]
    rw [foldl_flag_step_iterations post _
      (by simpa [flag_step, close_handler] using signo_ne_zero s) hpost]
    simp [flag_step, close_handler]

theorem interrupt_flag_transitions_witness :
    flag_after ([FlagStep.iteration (-4) []] ++ FlagStep.signal Signal.SIGTERM ::
      [FlagStep.iteration (-1) [Signal.SIGHUP], FlagStep.iteration 0 []]) =
        Signal.SIGTERM.signo :=
  (interrupt_flag_transitions [FlagStep.iteration (-4) []]
    [FlagStep.iteration (-1) [Signal.SIGHUP], FlagStep.iteration 0 []] Signal.SIGTERM).2.2.2
    (by decide)

/-! ## The receive loop -/

lemma wouldblock_eq : -NLE_AGAIN = -EINTR := rfl

/-- C5: take a pass of the receive loop that starts with the flag unset and let
r be the value the receive returns. If r is the would-block failure -NLE_AGAIN
or a success (r >= 0), the pass does not write the flag (it holds what the
signals delivered meanwhile left in it, 0 when there are none) and the loop
goes on with the next pass. If r is any other failure, the flag is set to 1 and
the loop is left at its next test, after exactly this one receive, with ret = r.
With no signal around, the flag is 1 after the pass exactly when r is a failure
other than would-block, and 0 otherwise. -/
theorem recv_result_decides_loop (flag ret r : Int) (t : List Call)
    (before during : List Signal) (rest : List Iteration) (h0 : deliver before flag = 0) :
    ((r = -NLE_AGAIN ∨ 0 ≤ r) →
      loop_body (deliver before flag) r during = some (deliver during 0, r) ∧
      deliver [] 0 = 0 ∧
      recv_loop flag ret t (⟨before, r, during⟩ :: rest) =
        recv_loop (deliver during 0) r (t ++ [Call.nl_recvmsgs_default]) rest) ∧
    ((r < 0 ∧ r ≠ -NLE_AGAIN) →
      loop_body (deliver before flag) r during = some (1, r) ∧
      ∀ next : Iteration,
        recv_loop flag ret t (⟨before, r, during⟩ :: next :: rest) =
          ⟨t ++ [Call.nl_recvmsgs_default], deliver next.before 1, some r⟩ ∧
        deliver next.before 1 ≠ 0) ∧
    (loop_body (deliver before flag) r [] = some (1, r) ↔ (r < 0 ∧ r ≠ -NLE_AGAIN)) ∧
    (loop_body (deliver before flag) r [] = some (0, r) ↔ ¬ (r < 0 ∧ r ≠ -NLE_AGAIN)) := by
  have hfail : ∀ d, (r < 0 ∧ r ≠ -NLE_AGAIN) → loop_body 0 r d = some (1, r) := by
    intro d h
    simp [loop_body, h.1, ← wouldblock_eq, h.2]
  have hgo : ∀ d, ¬ (r < 0 ∧ r ≠ -NLE_AGAIN) → loop_body 0 r d = some (deliver d 0, r) := by
    intro d h
    have h' : ¬ (r < 0 ∧ r ≠ -EINTR) := by rwa [← wouldblock_eq]
    simp only [loop_body, ne_eq, not_true_eq_false, if_false, h']
  rw [h0]
  refine ⟨?_, ?_, ?_, ?_⟩
  · intro h
    have hn : ¬ (r < 0 ∧ r ≠ -NLE_AGAIN) := by
      rcases h with h | h
      · exact fun hc => hc.2 h
      · exact fun hc => absurd hc.1 (not_lt.mpr h)
    refine ⟨hgo during hn, rfl, ?_⟩
    simp only [recv_loop, h0, hgo during hn]
  · intro h
    refine ⟨hfail during h, fun next => ⟨?_, deliver_ne_zero _ _ one_ne_zero⟩⟩
    have hb : loop_body (deliver next.before 1) next.recv next.during = none := by
      simp [loop_body, deliver_ne_zero next.before 1 one_ne_zero]
    simp only [recv_loop, h0, hfail during h, hb]
  · constructor
    · intro h
      by_contra hc
      rw [hgo [] hc] at h
      simp [deliver] at h
    · exact hfail []
  · constructor
    · intro h hc
      rw [hfail [] hc] at h
      simp at h
    · intro h
      simpa [deliver] using hgo [] h

theorem recv_result_decides_loop_witness :
    deliver [] 0 = 0 ∧
    recv_loop 0 20 [] (⟨[], -4, []⟩ :: [⟨[Signal.SIGINT], 0, []⟩]) =
      recv_loop (deliver [] 0) (-4) ([] ++ [Call.nl_recvmsgs_default])
        [⟨[Signal.SIGINT], 0, []⟩] ∧
    recv_loop 0 20 [] (⟨[], -5, []⟩ :: ⟨[], 0, []⟩ :: []) =
      ⟨[] ++ [Call.nl_recvmsgs_default], deliver [] 1, some (-5)⟩ :=
  ⟨by decide,
    ((recv_result_decides_loop 0 20 (-4) [] [] [] [⟨[Signal.SIGINT], 0, []⟩] (by decide)).1
      (Or.inl (by decide))).2.2,
    (((recv_result_decides_loop 0 20 (-5) [] [] [] [] (by decide)).2.1
      (by decide)).2 ⟨[], 0, []⟩).1⟩

/-! ## Decoding of received messages -/

/-- C2, evaluated on the code: for the message cmd = 1, DOMAIN_ID = 7, STATE = 2
the line is the one the claim gives, but for the message cmd = 1,
STATE = 0x80000000 the segment printed for the attribute is
state = -2147483648, which is not the encoded unsigned value 2147483648. -/
theorem large_value_printed_negative :
    callback_message msg_example = ("cmd = 1 domain_id = 7 state = 2\n", NL_OK) ∧
    callback_message msg_large_state = ("cmd = 1 state = -2147483648\n", NL_OK) ∧
    callback_message msg_large_state ≠ ("cmd = 1 state = 2147483648\n", NL_OK) := by
  decide

/-- C9, as stated, fails: a DOMAIN_ID attribute whose payload has two bytes
only is not omitted, a segment is printed for it from the four bytes that
follow its header (payload and padding); a DOMAIN_ID attribute with no payload
at all is printed with the header bytes of the attribute that follows it; and
when the attribute data ends less than four bytes after the header of
DOMAIN_ID, a segment is still printed, from the bytes the memory holds after
the attribute data. -/
theorem short_payload_is_printed :
    callback_message msg_short_domain_id = ("cmd = 1 domain_id = 7\n", NL_OK) ∧
    callback_message msg_empty_domain_id =
      ("cmd = 1 domain_id = 131080 state = 5\n", NL_OK) ∧
    callback_message msg_truncated_domain_id = ("cmd = 1 domain_id = -1\n", NL_OK) ∧
    callback_message msg_unpadded_domain_id = ("cmd = 1 domain_id = 7\n", NL_OK) := by
  decide

lemma nla_len_encode (ty v : Nat) (X : List Nat) : nla_len (encode_u32 ty v ++ X) = 8 := by
  simp [nla_len, read_u16, encode_u32]

lemma nla_type_encode (ty v : Nat) (X : List Nat) (h : ty ≤ 3) :
    nla_type (encode_u32 ty v ++ X) = ty := by
  simp only [nla_type, read_u16, encode_u32, le32, List.cons_append, List.nil_append,
    List.drop_succ_cons, List.drop_zero, List.getD_cons_zero, List.getD_cons_succ]
  omega

lemma nla_next_encode (ty v : Nat) (X : List Nat) : nla_next (encode_u32 ty v ++ X) = X := by
  rw [nla_next, nla_len_encode]
  simp [NLA_ALIGN, encode_u32, le32]

lemma length_encode (ty v : Nat) (X : List Nat) :
    (encode_u32 ty v ++ X).length = X.length + 8 := by
  simp [encode_u32, le32]

lemma nla_ok_encode (ty v : Nat) (X : List Nat) :
    nla_ok (encode_u32 ty v ++ X) ((encode_u32 ty v ++ X).length : Nat) = true := by
  simp only [nla_ok, nla_len_encode, length_encode, NLA_HDRLEN]
  simp
  omega

lemma nla_get_u32_encode (ty v : Nat) (X : List Nat) (beyond : Nat → Nat)
    (h : v < 4294967296) : nla_get_u32 (encode_u32 ty v ++ X) beyond = v := by
  have h4 : ∀ k, k < 8 → k < (encode_u32 ty v ++ X).length := by
    intro k hk
    rw [length_encode]
    omega
  simp only [nla_get_u32, byte_at, NLA_HDRLEN, h4 4 (by omega), h4 5 (by omega),
    h4 6 (by omega), h4 7 (by omega), if_true, Nat.reduceAdd]
  simp only [encode_u32, le32, List.cons_append, List.nil_append, List.getD_cons_zero,
    List.getD_cons_succ]
  omega

lemma encode_attrs_cons (ty v : Nat) (rest : List (Nat × Nat)) (junk : List Nat) :
    encode_attrs ((ty, v) :: rest) ++ junk = encode_u32 ty v ++ (encode_attrs rest ++ junk) := by
  simp [encode_attrs]

/-- The walk over well-formed attributes followed by bytes that do not start
an acceptable attribute stores exactly the well-formed attributes. -/
lemma nla_walk_encode (attrs : List (Nat × Nat)) (junk : List Nat)
    (hty : ∀ a ∈ attrs, 1 ≤ a.1 ∧ a.1 ≤ 3)
    (hjunk : nla_ok junk (junk.length : Nat) = false) (fuel : Nat) (hfuel : attrs.length ≤ fuel)
    (tb : AttrTable) (t : Nat) :
    nla_walk 3 fuel (encode_attrs attrs ++ junk) ((encode_attrs attrs ++ junk).length : Nat) tb t =
      match attr_ptr t attrs junk with
      | some p => some p
      | none => tb t := by
  induction attrs generalizing fuel tb with
  | nil =>
    cases fuel with
    | zero => simp [nla_walk, attr_ptr]
    | succ f => simp [nla_walk, attr_ptr, encode_attrs, hjunk]
  | cons a rest ih =>
    obtain ⟨ty, v⟩ := a
    cases fuel with
    | zero => simp at hfuel
    | succ f =>
      have hty' : ∀ a ∈ rest, 1 ≤ a.1 ∧ a.1 ≤ 3 := fun a ha => hty a (List.mem_cons_of_mem _ ha)
      have hle : ty ≤ 3 := (hty (ty, v) (List.mem_cons_self _ _)).2
      have hrem : (((encode_u32 ty v ++ (encode_attrs rest ++ junk)).length : Nat) : Int) -
          ((NLA_ALIGN 8 : Nat) : Int) = ((encode_attrs rest ++ junk).length : Nat) := by
        rw [length_encode]
        simp [NLA_ALIGN]
      rw [encode_attrs_cons]
      simp only [nla_walk, nla_ok_encode, if_true, nla_type_encode ty v _ hle, nla_next_encode,
        nla_len_encode, hrem, not_lt.mpr hle, if_false, gt_iff_lt]
      rw [ih hty' f (by simpa using hfuel)]
      simp only [attr_ptr, encode_attrs_cons]
      cases attr_ptr t rest junk with
      | some p => rfl
      | none =>
        by_cases h : t = ty
        · simp [h]
        · simp [h, Ne.symm h]

lemma attr_ptr_value (t : Nat) (attrs : List (Nat × Nat)) (junk : List Nat)
    (beyond : Nat → Nat) (hv : ∀ a ∈ attrs, a.2 < 4294967296) :
    (attr_ptr t attrs junk = none ∧ attr_value t attrs = none) ∨
      ∃ p v, attr_ptr t attrs junk = some p ∧ attr_value t attrs = some v ∧
        nla_get_u32 p beyond = v := by
  induction attrs with
  | nil => exact Or.inl ⟨rfl, rfl⟩
  | cons a rest ih =>
    obtain ⟨ty, v⟩ := a
    have hv' : ∀ a ∈ rest, a.2 < 4294967296 := fun a ha => hv a (List.mem_cons_of_mem _ ha)
    rcases ih hv' with ⟨h1, h2⟩ | ⟨p, w, h1, h2, h3⟩
    · by_cases h : ty = t
      · subst h
        refine Or.inr ⟨encode_attrs ((ty, v) :: rest) ++ junk, v,
          by simp only [attr_ptr, h1, if_true], by simp only [attr_value, h2, if_true], ?_⟩
        rw [encode_attrs_cons]
        exact nla_get_u32_encode _ _ _ _ (hv (ty, v) (List.mem_cons_self _ _))
      · exact Or.inl ⟨by simp only [attr_ptr, h1, h, if_false],
          by simp only [attr_value, h2, h, if_false]⟩
    · exact Or.inr ⟨p, w, by simp only [attr_ptr, h1], by simp only [attr_value, h2], h3⟩

lemma to_int32_small (v : Nat) (h : v < 2147483648) : to_int32 v = (v : Int) := by
  unfold to_int32
  omega

lemma to_int32_large (v : Nat) (h1 : 2147483648 ≤ v) (h2 : v < 4294967296) :
    to_int32 v = (v : Int) - 4294967296 := by
  unfold to_int32
  omega

lemma toString_cast (v : Nat) : toString (v : Int) = toString v := by
  show Int.repr (Int.ofNat v) = Nat.repr v
  simp only [Int.repr]

lemma printf_d_def (v : Nat) : printf_d v = toString (to_int32 v) := rfl

lemma printf_d_eq (v : Nat) (h : v < 4294967296) :
    printf_d v =
      if v < 2147483648 then toString v else toString ((v : Int) - 4294967296) := by
  by_cases hs : v < 2147483648
  · rw [printf_d_def, to_int32_small v hs, if_pos hs, toString_cast]
  · rw [printf_d_def, to_int32_large v (not_lt.mp hs) h, if_neg hs]

lemma attr_value_lt (t : Nat) (attrs : List (Nat × Nat)) (hv : ∀ a ∈ attrs, a.2 < 4294967296)
    (v : Nat) (h : attr_value t attrs = some v) : v < 4294967296 := by
  induction attrs with
  | nil => simp [attr_value] at h
  | cons a rest ih =>
    obtain ⟨ty, w⟩ := a
    have hv' : ∀ a ∈ rest, a.2 < 4294967296 := fun a ha => hv a (List.mem_cons_of_mem _ ha)
    simp only [attr_value] at h
    cases hr : attr_value t rest with
    | some x =>
      rw [hr] at h
      simp only [Option.some.injEq] at h
      subst h
      exact ih hv' hr
    | none =>
      rw [hr] at h
      by_cases hty : ty = t
      · simp only [hty, if_true, Option.some.injEq] at h
        exact h ▸ hv (ty, w) (List.mem_cons_self _ _)
      · simp [hty] at h

lemma length_encode_attrs (attrs : List (Nat × Nat)) (junk : List Nat) :
    attrs.length ≤ (encode_attrs attrs ++ junk).length := by
  induction attrs with
  | nil => simp
  | cons a rest ih =>
    obtain ⟨ty, v⟩ := a
    rw [encode_attrs_cons, length_encode]
    simp only [List.length_cons]
    omega

/-- What one of the three blocks of lines 87-100 appends to the line, for
well-formed attributes followed by bytes that do not start an acceptable
attribute. -/
lemma print_attr_encode (out key : String) (t : Nat) (attrs : List (Nat × Nat))
    (junk : List Nat) (beyond : Nat → Nat)
    (hty : ∀ a ∈ attrs, 1 ≤ a.1 ∧ a.1 ≤ 3 ∧ a.2 < 4294967296)
    (hjunk : nla_ok junk (junk.length : Nat) = false) :
    print_attr out key beyond
        (nla_parse 3 (encode_attrs attrs ++ junk) (encode_attrs attrs ++ junk).length t) =
      out ++ segment key (attr_value t attrs) := by
  rw [nla_parse, nla_walk_encode attrs junk (fun a ha => ⟨(hty a ha).1, (hty a ha).2.1⟩) hjunk _
    (length_encode_attrs attrs junk)]
  rcases attr_ptr_value t attrs junk beyond (fun a ha => (hty a ha).2.2) with ⟨h1, h2⟩ |
    ⟨p, v, h1, h2, h3⟩
  · rw [h1, h2]
    simp only [print_attr, segment, String.append_empty]
  · have hv : v < 4294967296 := attr_value_lt t attrs (fun a ha => (hty a ha).2.2) v h2
    rw [h1, h2]
    simp only [print_attr, h3, segment, printf_d_eq v hv, String.append_assoc]

/-- The line printed for well-formed attributes followed by bytes that do not
start an acceptable attribute. -/
lemma callback_message_encode (cmd : Nat) (attrs : List (Nat × Nat)) (junk : List Nat)
    (beyond : Nat → Nat) (hty : ∀ a ∈ attrs, 1 ≤ a.1 ∧ a.1 ≤ 3 ∧ a.2 < 4294967296)
    (hjunk : nla_ok junk (junk.length : Nat) = false) :
    callback_message ⟨cmd, encode_attrs attrs ++ junk, beyond⟩ =
      (expected_line cmd attrs, NL_OK) := by
  simp only [callback_message, DOMSTATE_NOTIFY_ATTR_MAX, DOMSTATE_NOTIFY_ATTR_DOMAIN_ID,
    DOMSTATE_NOTIFY_ATTR_STATE, DOMSTATE_NOTIFY_ATTR_EXTRA, expected_line,
    print_attr_encode _ _ _ attrs junk beyond hty hjunk]

/-- C10: for every message whose attribute data holds attributes among
DOMAIN_ID, STATE and EXTRA, each with an unsigned 32-bit value, callback_message
prints the command followed by one segment for each attribute present, and the
number in a segment is the decimal form of the value v when v is below 2^31 and
the decimal form of v - 2^32, a negative number, when v is 2^31 or more
(the function segment spells this out). -/
theorem values_printed_signed (cmd : Nat) (attrs : List (Nat × Nat)) (beyond : Nat → Nat)
    (hty : ∀ a ∈ attrs, 1 ≤ a.1 ∧ a.1 ≤ 3 ∧ a.2 < 4294967296) :
    callback_message ⟨cmd, encode_attrs attrs, beyond⟩ = (expected_line cmd attrs, NL_OK) ∧
    (∀ key v, v < 2147483648 → segment key (some v) = " " ++ key ++ " = " ++ toString v) ∧
    (∀ key v, 2147483648 ≤ v →
      segment key (some v) = " " ++ key ++ " = " ++ toString ((v : Int) - 4294967296)) := by
  refine ⟨?_, ?_, ?_⟩
  · have h := callback_message_encode cmd attrs [] beyond hty (by decide)
    rwa [List.append_nil] at h
  · intro key v hv
    simp only [segment, if_pos hv]
  · intro key v hv
    simp only [segment, if_neg (not_lt.mpr hv)]

theorem values_printed_signed_witness :
    callback_message ⟨1, encode_attrs [(1, 7), (3, 4294967295)], fun _ => 0⟩ =
      (expected_line 1 [(1, 7), (3, 4294967295)], NL_OK) ∧
    expected_line 1 [(1, 7), (3, 4294967295)] = "cmd = 1 domain_id = 7 extra = -1\n" :=
  ⟨(values_printed_signed 1 [(1, 7), (3, 4294967295)] (fun _ => 0) (by decide)).1, by decide⟩

/-- C9, amended: for every message, whatever its attribute data, callback_message
returns NL_OK; and for attribute data made of well-formed DOMAIN_ID, STATE and
EXTRA attributes followed by bytes that do not start an acceptable attribute
(fewer than four bytes, or a length field below 4 or beyond the bytes that
remain), it prints exactly the line of the well-formed attributes, whatever
the memory holds after the data: the attribute at which the walk stops and all
that follows it are dropped. -/
theorem truncated_tail_is_dropped (cmd : Nat) (attrs : List (Nat × Nat)) (junk : List Nat)
    (beyond : Nat → Nat) (hty : ∀ a ∈ attrs, 1 ≤ a.1 ∧ a.1 ≤ 3 ∧ a.2 < 4294967296)
    (hjunk : nla_ok junk (junk.length : Nat) = false) :
    (∀ m : genl_msg, ∃ out, callback_message m = (out, NL_OK)) ∧
    callback_message ⟨cmd, encode_attrs attrs ++ junk, beyond⟩ =
      (expected_line cmd attrs, NL_OK) ∧
    callback_message ⟨cmd, encode_attrs attrs ++ junk, beyond⟩ =
      callback_message ⟨cmd, encode_attrs attrs, beyond⟩ := by
  have h1 := callback_message_encode cmd attrs junk beyond hty hjunk
  have h2 := callback_message_encode cmd attrs [] beyond hty (by decide)
  rw [List.append_nil] at h2
  exact ⟨fun m => ⟨_, rfl⟩, h1, by rw [h1, h2]⟩

theorem truncated_tail_is_dropped_witness :
    nla_ok [8, 0, 2, 0, 5] (([8, 0, 2, 0, 5] : List Nat).length : Nat) = false ∧
    callback_message ⟨1, encode_attrs [(1, 7)] ++ [8, 0, 2, 0, 5], fun _ => 255⟩ =
      (expected_line 1 [(1, 7)], NL_OK) ∧
    expected_line 1 [(1, 7)] = "cmd = 1 domain_id = 7\n" :=
  ⟨by decide,
    (truncated_tail_is_dropped 1 [(1, 7)] [8, 0, 2, 0, 5] (fun _ => 255) (by decide)
      (by decide)).2.1,
    by decide⟩

end DomstateNotify
